import Mathlib

/-!
Verification development for the DSA (Distance-based Structural Alignment)
pipeline, a shallow embedding of `dsa/pipeline.py` and `dsa/fetch.py`.

Modelling conventions:
* A dataframe cell of a chain column holds the string `"CODE, pdb_seq_num"`;
  we model it as `Option (String × Int)` (`none` is a pandas NaN).  The
  reference column holds a bare three-letter code, modelled `Option String`.
* Row filters (`dropna`, `drop_duplicates`) are modelled by keep-index lists;
  all columns of a dataframe have equal length, and `List.getD` out-of-range
  behaviour is only exercised on well-formed inputs.
* `seq_ratio` comparisons use exact rationals `ℚ` in place of IEEE doubles;
  the claims under study do not hinge on float rounding of the coverage
  percentage.
* Floating point distance arithmetic is modelled over `ℚ` inputs with an
  exact real (`Real.sqrt`) result; `np.rint` is modelled exactly as
  round-half-to-even on `ℚ`.
-/

/-- A residue matrix: `ref` is the UniProt reference column (three-letter
codes), `chains` the PDB-chain columns, each cell `(code, pdb_seq_num)` or
null.  Mirrors the `seqdata` dataframe of `pipeline.py`. -/
structure SeqMat (α : Type) where
  ref : List (Option String)
  chains : List (List (Option α))
deriving DecidableEq, Repr

/-- Keep the rows whose (0-based) positions are listed in `keep`, in order.
This is the common denotation of pandas row-dropping operations. -/
def selRows (keep : List Nat) (m : SeqMat α) : SeqMat α :=
  ⟨keep.map (fun i => m.ref.getD i none),
   m.chains.map (fun c => keep.map (fun i => c.getD i none))⟩

/-- Positions whose reference entry is non-null: the row set produced by
`sequencedata.dropna(subset=sequencedata.columns[0])` (pipeline.py line 16). -/
def refKeepIdx (m : SeqMat α) : List Nat :=
  (List.range m.ref.length).filter (fun i => (m.ref.getD i none).isSome)

/-- `trim_sequence`'s first step: drop rows with a null reference entry. -/
def refFilter (m : SeqMat α) : SeqMat α := selRows (refKeepIdx m) m

/-- Number of null cells of a column over the first `L` rows. -/
def countNulls (L : Nat) (c : List (Option α)) : Nat :=
  ((List.range L).filter (fun i => (c.getD i none).isNone)).length

/-- Coverage test of `trim_sequence` (pipeline.py lines 18-22): a chain is
kept unless `100 - nulls/seqlen*100 < seq_ratio`.  The comparison is
evaluated exactly over the rationals, cross-multiplied to integers so the
kernel can compute it; `coverageOK_iff` certifies it against the literal
formula.  For `seqlen = 0` the Python expression is `nan < seq_ratio`,
which is false, so the chain is kept.  (The Python loop also scans the
reference column itself, which is never deleted for `seq_ratio ≤ 100`;
the model always keeps the reference.) -/
def coverageOK (ratio : ℚ) (L : Nat) (c : List (Option α)) : Bool :=
  if L = 0 then true
  else !decide (((100 * L - countNulls L c * 100 : Int)) * (ratio.den : Int) < ratio.num * (L : Int))

/-- The integer coverage test agrees with the source's rational formula
`100 - nulls/seqlen*100 < seq_ratio` whenever the row count is nonzero. -/
theorem coverageOK_iff (ratio : ℚ) (L : Nat) (c : List (Option α)) (hL : L ≠ 0) :
    coverageOK ratio L c = true ↔
      ¬ (100 - ((countNulls L c : ℚ) / (L : ℚ) * 100) < ratio) := by
  rw [coverageOK, if_neg hL]
  simp only [Bool.not_eq_eq_eq_not, Bool.not_true, decide_eq_false_iff_not]
  constructor <;> intro h hlt <;> apply h
  · have hL' : (0 : ℚ) < (L : ℚ) := by positivity
    have hden : (0 : ℚ) < ((ratio.den : ℤ) : ℚ) := by
      have := ratio.den_pos
      push_cast
      exact_mod_cast this
    have h1 : (100 - ((countNulls L c : ℚ) / (L : ℚ) * 100)) * (L : ℚ) < ratio * (L : ℚ) :=
      (mul_lt_mul_right hL').mpr hlt
    have h2 : (100 : ℚ) * L - (countNulls L c : ℚ) * 100 < ratio * (L : ℚ) := by
      have hne : (L : ℚ) ≠ 0 := ne_of_gt hL'
      calc (100 : ℚ) * L - (countNulls L c : ℚ) * 100
          = (100 - ((countNulls L c : ℚ) / (L : ℚ) * 100)) * (L : ℚ) := by
            field_simp
        _ < ratio * (L : ℚ) := h1
    have h3 : ((100 * L - countNulls L c * 100 : Int) : ℚ) * ((ratio.den : ℤ) : ℚ)
        < ratio * (L : ℚ) * ((ratio.den : ℤ) : ℚ) := by
      apply (mul_lt_mul_right hden).mpr
      push_cast
      push_cast at h2
      linarith
    have h4 : ratio * ((ratio.den : ℤ) : ℚ) = ((ratio.num : ℤ) : ℚ) := by
      have hre : (ratio.num : ℚ) / (ratio.den : ℚ) = ratio := Rat.num_div_den ratio
      have hdne : ((ratio.den : ℚ)) ≠ 0 := by
        have := ratio.den_pos
        positivity
      have h4x : (ratio.num : ℚ) = ratio * (ratio.den : ℚ) := (div_eq_iff hdne).mp hre
      push_cast
      linarith
    have h5 : ((100 * L - countNulls L c * 100 : Int) : ℚ) * ((ratio.den : ℤ) : ℚ)
        < ((ratio.num : ℤ) : ℚ) * (L : ℚ) := by
      calc ((100 * L - countNulls L c * 100 : Int) : ℚ) * ((ratio.den : ℤ) : ℚ)
          < ratio * (L : ℚ) * ((ratio.den : ℤ) : ℚ) := h3
        _ = ratio * ((ratio.den : ℤ) : ℚ) * (L : ℚ) := by ring
        _ = ((ratio.num : ℤ) : ℚ) * (L : ℚ) := by rw [h4]
    exact_mod_cast h5
  · have hL' : (0 : ℚ) < (L : ℚ) := by positivity
    have hden : (0 : ℚ) < ((ratio.den : ℤ) : ℚ) := by
      have := ratio.den_pos
      push_cast
      exact_mod_cast this
    have h4 : ratio * ((ratio.den : ℤ) : ℚ) = ((ratio.num : ℤ) : ℚ) := by
      have hre : (ratio.num : ℚ) / (ratio.den : ℚ) = ratio := Rat.num_div_den ratio
      have hdne : ((ratio.den : ℚ)) ≠ 0 := by
        have := ratio.den_pos
        positivity
      have h4x : (ratio.num : ℚ) = ratio * (ratio.den : ℚ) := (div_eq_iff hdne).mp hre
      push_cast
      linarith
    have h5 : ((100 * L - countNulls L c * 100 : Int) : ℚ) * ((ratio.den : ℤ) : ℚ)
        < ((ratio.num : ℤ) : ℚ) * (L : ℚ) := by exact_mod_cast hlt
    have h3 : ((100 * L - countNulls L c * 100 : Int) : ℚ) < ratio * (L : ℚ) := by
      have := (mul_lt_mul_right hden).mp (by
        calc ((100 * L - countNulls L c * 100 : Int) : ℚ) * ((ratio.den : ℤ) : ℚ)
            < ((ratio.num : ℤ) : ℚ) * (L : ℚ) := h5
          _ = ratio * ((ratio.den : ℤ) : ℚ) * (L : ℚ) := by rw [h4]
          _ = ratio * (L : ℚ) * ((ratio.den : ℤ) : ℚ) := by ring)
      exact this
    have hne : (L : ℚ) ≠ 0 := ne_of_gt hL'
    have h1 : (100 - ((countNulls L c : ℚ) / (L : ℚ) * 100)) * (L : ℚ) < ratio * (L : ℚ) := by
      calc (100 - ((countNulls L c : ℚ) / (L : ℚ) * 100)) * (L : ℚ)
          = (100 : ℚ) * L - (countNulls L c : ℚ) * 100 := by
            field_simp
        _ = ((100 * L - countNulls L c * 100 : Int) : ℚ) := by push_cast; ring
        _ < ratio * (L : ℚ) := h3
    exact (mul_lt_mul_right hL').mp h1

/-- `trim_sequence(sequencedata, seq_ratio)` (pipeline.py lines 14-25):
drop null-reference rows, drop low-coverage chain columns, then drop every
row still containing a null. -/
def trimSeq (ratio : ℚ) (m : SeqMat α) : SeqMat α :=
  let m1 := refFilter m
  let L := m1.ref.length
  let chains2 := m1.chains.filter (coverageOK ratio L)
  let rowKeep := (List.range L).filter
    (fun i => chains2.all (fun c => (c.getD i none).isSome))
  selRows rowKeep ⟨m1.ref, chains2⟩

/-- First-occurrence filter used for `drop_duplicates(subset=uniprotid,
keep="first")`: among the positions of `keep`, retain a position iff its
`vals` entry has not been seen at an earlier kept position. -/
def dedupIdx (vals : List (Option String)) : List Nat → List (Option String) → List Nat
  | [], _ => []
  | i :: rest, seen =>
      if vals.getD i none ∈ seen then dedupIdx vals rest seen
      else i :: dedupIdx vals rest (vals.getD i none :: seen)

/-- Project chain cells to their residue code: the
`x.split(", ")[0]` map of pipeline.py line 52 (reference cells are bare
codes and are unchanged by the split). -/
def codesOf (m : SeqMat (String × Int)) : SeqMat String :=
  ⟨m.ref, m.chains.map (fun c => c.map (Option.map Prod.fst))⟩

/-- Row positions (relative to the null-reference-filtered code matrix) of
the check view `trimdata` of `sort_sequence` lines 53-55: `trim_sequence`
followed by `drop_duplicates` on the reference column. -/
def cvIdx (ratio : ℚ) (m : SeqMat (String × Int)) : List Nat :=
  let mc := refFilter (codesOf m)
  let L := mc.ref.length
  let chains2 := mc.chains.filter (coverageOK ratio L)
  let rowKeep := (List.range L).filter
    (fun i => chains2.all (fun c => (c.getD i none).isSome))
  dedupIdx mc.ref rowKeep []

/-- Chain `j` joins the realignment list `IDs` of `sort_sequence`
(lines 57-63) iff it survives the coverage filter of the check view and its
code disagrees with the reference at some check-view row. -/
def disagreesAt (ratio : ℚ) (m : SeqMat (String × Int)) (j : Nat) : Bool :=
  let mc := refFilter (codesOf m)
  let c := mc.chains.getD j []
  coverageOK ratio mc.ref.length c &&
    (cvIdx ratio m).any (fun i => !(c.getD i none == mc.ref.getD i none))

/-- Positional `Series.shift(n)`: entry `i` of the result is entry `i - n`
of the input, null when out of range. -/
def shiftedCol (c : List (Option α)) (n : Int) : List (Option α) :=
  (List.range c.length).map (fun i =>
    if 0 ≤ (i : Int) - n ∧ (i : Int) - n < (c.length : Int)
    then c.getD ((i : Int) - n).toNat none else none)

/-- First-occurrence deduplication of `(reference, chain)` code pairs on the
reference component, used inside `_diff`. -/
def dedupPairs : List (String × String) → List String → List (String × String)
  | [], _ => []
  | p :: rest, seen =>
      if p.1 ∈ seen then dedupPairs rest seen
      else p :: dedupPairs rest (p.1 :: seen)

/-- `_diff(uniprotid, uniseq, difseq, shift)` (pipeline.py lines 28-33):
align the reference codes with the chain codes shifted by `shift`, drop
pair-nulls, deduplicate on the reference code keeping first occurrences and
count equal pairs.  Both series range over the null-reference-filtered rows
(`trim_sequence` mutated `seq` in place at line 53). -/
def diffCount (m : SeqMat (String × Int)) (j : Nat) (n : Int) : Nat :=
  let mc := refFilter (codesOf m)
  let sc := shiftedCol (mc.chains.getD j []) n
  let pairs := (List.range mc.ref.length).filterMap (fun i =>
    match mc.ref.getD i none, sc.getD i none with
    | some a, some b => some (a, b)
    | _, _ => none)
  (dedupPairs pairs []).countP (fun p => p.1 == p.2)

/-- Fate of one chain column in `sort_sequence`: kept unchanged, shifted in
place by an offset, or dropped (the dropped case is the one that logs
`sequence alignment failure`). -/
inductive ChainFate
  | keep
  | shiftBy (n : Int)
  | drop
deriving DecidableEq, Repr

/-- Offset update of the scan loop (pipeline.py line 74):
`num = (-num) + 1 if num < 0 else -num`. -/
def scanNext (num : Int) : Int := if num < 0 then -num + 1 else -num

/-- The scan loop of `sort_sequence` lines 70-74, fuel-indexed:
`while unique < 10 and num < 100: unique = _diff(..., num); num = scanNext num`.
Returns the final `(num, unique)` pair. -/
def whileScan (f : Int → Nat) : Nat → Int → Nat → Int × Nat
  | 0, num, u => (num, u)
  | fuel + 1, num, u =>
      if u < 10 ∧ num < 100 then whileScan f fuel (scanNext num) (f num)
      else (num, u)

/-- Decision taken for one chain of the realignment list `IDs`
(pipeline.py lines 65-85), where `f n` is the deduplicated match count of
the chain shifted by `n`.  The unshifted count is checked first
(`if unique > 10: continue`); otherwise the loop scans offsets starting
from 1 and the chain is shifted only when the final count exceeds 10,
with the accepted offset reconstructed from the post-loop `num`. -/
def chainDecision (f : Int → Nat) : ChainFate :=
  if 10 < f 0 then .keep
  else
    let r := whileScan f 200 1 0
    if 10 < r.2 then .shiftBy (if 0 < r.1 then -r.1 + 1 else -r.1)
    else .drop

/-- Fate of chain `j` under `sort_sequence`: chains outside the
disagreement list `IDs` are untouched. -/
def decisionFor (ratio : ℚ) (m : SeqMat (String × Int)) (j : Nat) : ChainFate :=
  if disagreesAt ratio m j then chainDecision (fun n => diffCount m j n) else .keep

/-- Apply every chain's fate to the full-cell matrix (pipeline.py
lines 76-85): shifted columns replace the original at the same position,
dropped columns disappear, everything else is unchanged. -/
def applyDecisions (ratio : ℚ) (m : SeqMat (String × Int)) : SeqMat (String × Int) :=
  ⟨m.ref,
   m.chains.enum.filterMap (fun ic =>
     match decisionFor ratio m ic.1 with
     | .keep => some ic.2
     | .shiftBy n => some (shiftedCol ic.2 n)
     | .drop => none)⟩

/-- Seq-num projection of a chain column (`int(x.split(", ")[1])`). -/
def numsOf (c : List (Option (String × Int))) : List (Option Int) :=
  c.map (Option.map Prod.snd)

/-- `Series.duplicated(keep="first")` at index `i`: the value repeats an
earlier row's value (pandas treats nulls as equal to each other). -/
def dupAt (xs : List (Option Int)) (i : Nat) : Bool :=
  decide (xs.getD i none ∈ xs.take i)

/-- `trim2_sequence` (pipeline.py lines 36-47): drop every row at which any
chain's `pdb_seq_num` duplicates an earlier row of the same chain. -/
def trim2Seq (m : SeqMat (String × Int)) : SeqMat (String × Int) :=
  let keep := (List.range m.ref.length).filter
    (fun i => !(m.chains.any (fun c => dupAt (numsOf c) i)))
  selRows keep m

/-- `sort_sequence(uniprotid, sequencedata, seq_ratio)` (pipeline.py
lines 50-88): per-chain agreement check and offset recovery against the
check view, then re-trim and seq-num deduplicate. -/
def sortSequence (ratio : ℚ) (m : SeqMat (String × Int)) : SeqMat (String × Int) :=
  trim2Seq (trimSeq ratio (applyDecisions ratio m))

/-! ### MutationClassifier (`CifData.mutationjudge`, fetch.py lines 275-317) -/

/-- A row of `struct_ref_seq` restricted to the columns `mutationjudge`
reads (`m_pd = self.struct_ref_seq[["strand_id", "accession"]]`). -/
structure RefSeqRow where
  strand : String
  accession : String
deriving DecidableEq, Repr

/-- A row of the (already detail-filtered) `struct_ref_seq_dif` table. -/
structure DifRow where
  strand : String
  seqNum : String
  dbSeqNum : String
  details : String
deriving DecidableEq, Repr

/-- The two mmCIF tables `mutationjudge` consumes. -/
structure CifTables where
  refSeq : List RefSeqRow
  dif : List DifRow
deriving DecidableEq, Repr

/-- Detail values removed from `struct_ref_seq_dif` in `CifData.__init__`
(fetch.py lines 189-200); note the source's misspelling
`microgeterogeneity`, which is what gets excluded there. -/
def excludedDetails : List String :=
  ["expression tag", "linker", "conflict", "microgeterogeneity"]

/-- The `__init__` filter on descriptor rows (details are stored
lower-cased upstream). -/
def filterDif (rows : List DifRow) : List DifRow :=
  rows.filter (fun d => decide (d.details ∉ excludedDetails))

/-- `unim_pd`: the `struct_ref_seq` rows whose accession is one of the
UniProt accessions. -/
def matchingRefSeq (ids : List String) (c : CifTables) : List RefSeqRow :=
  c.refSeq.filter (fun r => decide (r.accession ∈ ids))

/-- `mdif_pd`: the descriptor rows belonging to a matching strand. -/
def matchingDif (ids : List String) (c : CifTables) : List DifRow :=
  c.dif.filter (fun d => decide (d.strand ∈ (matchingRefSeq ids c).map (·.strand)))

/-- `CifData.mutationjudge` (fetch.py lines 275-317), translated branch by
branch. -/
def mutationjudge (ids : List String) (c : CifTables) : String :=
  let unim := matchingRefSeq ids c
  if unim.length = 0 then "UniProt ID mismatch"
  else if ¬ unim.Nodup then "chimera"
  else
    let mId := unim.map (·.strand)
    let mdif := matchingDif ids c
    if mdif.length = 0 then "normal"
    else if "engineered mutation" ∈ mdif.map (·.details) then "substitution"
    else if "microheterogeneity" ∈ mdif.map (·.details) then "normal"
    else if ¬ (c.refSeq.map (·.strand)).Nodup then "chimera"
    else if mId.any (fun i =>
        let sd := mdif.filter (fun d => d.strand == i)
        !(sd.map (·.seqNum)).Nodup || !(sd.map (·.dbSeqNum)).Nodup)
      then "delins"
    else "substitution"

/-! ### Ensemble assembly (`prep`, pipeline.py lines 193-267) -/

/-- The data `prep` gathers for one PDB entry: the mutation judgement, the
UniProt `position` range `beg-end` (1-based, inclusive) and the chain
vectors returned by `CifData.getsequence`.  `getsequence` itself parses
mmCIF files from disk; its output enters the model as input data, carrying
the chain-vector length invariant of the data model (length
`end − beg + 1`). -/
structure PdbEntry where
  judge : String
  beg : Nat
  endPos : Nat
  chains : List (List (Option (String × Int)))
deriving DecidableEq, Repr

/-- Padding of one `getsequence` column (pipeline.py lines 243-248):
`beg − 1` null rows above, `len_seqdata − end` null rows below. -/
def prepColumn (L beg endPos : Nat) (chain : List (Option (String × Int))) :
    List (Option (String × Int)) :=
  List.replicate (beg - 1) none ++ chain ++ List.replicate (L - endPos) none

/-- The four judgements whose chains are appended to the ensemble matrix
(pipeline.py lines 232-241). -/
def acceptedJudges : List String := ["normal", "substitution", "chimera", "delins"]

/-- The ensemble matrix built by `prep`: the reference column is the
three-letter UniProt sequence, and every chain of every accepted PDB entry
is appended padded to the reference frame. -/
def prepMat (refSeq : List String) (pdbs : List PdbEntry) : SeqMat (String × Int) :=
  ⟨refSeq.map some,
   ((pdbs.filter (fun p => decide (p.judge ∈ acceptedJudges))).map
     (fun p => p.chains.map (prepColumn refSeq.length p.beg p.endPos))).flatten⟩

/-! ### Scorer (`calculat`, `getdistance2`, `getscore`, pipeline.py
lines 131-179) and the driver branch of `run_DSA` (lines 270-405). -/

/-- `np.rint` on an exact rational: round to the nearest integer, ties to
even (the documented IEEE `rint` semantics numpy implements). -/
def rhe (q : ℚ) : ℤ :=
  if Int.fract q < 1 / 2 then ⌊q⌋
  else if 1 / 2 < Int.fract q then ⌊q⌋ + 1
  else if 2 ∣ ⌊q⌋ then ⌊q⌋ else ⌊q⌋ + 1

/-- `calculat(atom1, atom2)` (pipeline.py lines 131-137): componentwise
difference, scaled by 1000, rounded by `np.rint`, summed squares, square
root, divided by 1000. -/
noncomputable def calculat (a b : ℚ × ℚ × ℚ) : ℝ :=
  Real.sqrt (((rhe ((a.1 - b.1) * 1000)) ^ 2 + (rhe ((a.2.1 - b.2.1) * 1000)) ^ 2 +
      (rhe ((a.2.2 - b.2.2) * 1000)) ^ 2 : ℤ) : ℝ) / 1000

/-- Spec-side rounding written from the spec words "away-from-zero
rounding": round half away from zero. -/
def roundAway (q : ℚ) : ℤ :=
  if 0 ≤ q then ⌊q + 1 / 2⌋ else -⌊-q + 1 / 2⌋

/-- Modelled from the spec (§4.6): the claimed distance formula
`√Σ(round((aₖ − bₖ)·1000))²/1000` with away-from-zero rounding. -/
noncomputable def specDistAway (a b : ℚ × ℚ × ℚ) : ℝ :=
  Real.sqrt (((roundAway ((a.1 - b.1) * 1000)) ^ 2 +
      (roundAway ((a.2.1 - b.2.1) * 1000)) ^ 2 +
      (roundAway ((a.2.2 - b.2.2) * 1000)) ^ 2 : ℤ) : ℝ) / 1000

/-- Spec-side rounding for the amended claim: nearest integer by absolute
distance, ties resolved to the even of floor/ceiling. -/
def nearestEven (q : ℚ) : ℤ :=
  if |q - (⌊q⌋ : ℚ)| < |q - (⌈q⌉ : ℚ)| then ⌊q⌋
  else if |q - (⌈q⌉ : ℚ)| < |q - (⌊q⌋ : ℚ)| then ⌈q⌉
  else if 2 ∣ ⌊q⌋ then ⌊q⌋ else ⌈q⌉

/-- The amended distance formula: same structure, round-half-to-even. -/
noncomputable def specDistHalfEven (a b : ℚ × ℚ × ℚ) : ℝ :=
  Real.sqrt (((nearestEven ((a.1 - b.1) * 1000)) ^ 2 +
      (nearestEven ((a.2.1 - b.2.1) * 1000)) ^ 2 +
      (nearestEven ((a.2.2 - b.2.2) * 1000)) ^ 2 : ℤ) : ℝ) / 1000

/-- A row of the coordinate table produced by `getcoord`: original row
label (`atomcoord.index`), reference residue code (column 0) and, per
chain, the chain's residue code with the Cα coordinates. -/
structure CoordRow where
  idx : Nat
  refCode : String
  atoms : List (String × ℚ × ℚ × ℚ)
deriving DecidableEq, Repr

/-- `itertools.combinations(l, 2)` in list order. -/
def combos : List α → List (α × α)
  | [] => []
  | x :: xs => xs.map (fun y => (x, y)) ++ combos xs

/-- A row of the distance table of `getdistance2`: textual position-pair
key, reference residue pair, and one distance per chain. -/
structure DistRow where
  key : String
  residuePair : String
  dists : List ℝ

/-- Row constructor of `getdistance2` for one unordered pair of coordinate
rows: key `"{a+1}, {b+1}"` from the integer row labels, residue pair from
the reference codes, `calculat` distances per chain. -/
noncomputable def distRowOf (a b : CoordRow) : DistRow :=
  ⟨toString (a.idx + 1) ++ ", " ++ toString (b.idx + 1),
   a.refCode ++ ", " ++ b.refCode,
   (a.atoms.zip b.atoms).map (fun pq => calculat pq.1.2 pq.2.2)⟩

/-- `getdistance2(atomcoord)` (pipeline.py lines 140-161): one row per
2-combination of coordinate rows, in enumeration order. -/
noncomputable def getdistance2 (t : List CoordRow) : List DistRow :=
  (combos t).map (fun p => distRowOf p.1 p.2)

/-- A row of the score table of `getscore`. -/
structure ScoreRow where
  key : String
  residuePair : String
  distMean : ℝ
  distStd : ℝ
  score : ℝ

/-- Arithmetic mean of a list (`DataFrame.mean(axis="columns")`). -/
noncomputable def listMean (xs : List ℝ) : ℝ := xs.sum / xs.length

/-- pandas `DataFrame.std(axis="columns", ddof)` over one row:
`√(Σ(x − mean)² / (n − ddof))`. -/
noncomputable def pandasStd (xs : List ℝ) (ddof : ℕ) : ℝ :=
  Real.sqrt ((xs.map (fun x => (x - listMean xs) ^ 2)).sum / ((xs.length - ddof : ℕ) : ℝ))

/-- Modelled from the spec (§4.6 Statistics): the population standard
deviation, divisor `n`. -/
noncomputable def popStdDev (xs : List ℝ) : ℝ :=
  Real.sqrt ((xs.map (fun x => (x - listMean xs) ^ 2)).sum / (xs.length : ℝ))

open Classical in
/-- One output row of `getscore` (pipeline.py lines 164-179): mean,
standard deviation computed with the hardcoded `ddof=0`, zero replaced by
`0.0001`, and `score = mean / std`. -/
noncomputable def scoreRow (r : DistRow) : ScoreRow :=
  let μ := listMean r.dists
  let s0 := pandasStd r.dists 0
  let s := if s0 = 0 then 1 / 10000 else s0
  ⟨r.key, r.residuePair, μ, s, μ / s⟩

/-- `getscore(distance, ddof)` (pipeline.py lines 164-179).  The body calls
`std(..., ddof=0)` with a literal zero, so the `ddof` argument is unused. -/
noncomputable def getscore (d : List DistRow) (ddof : ℕ) : List ScoreRow :=
  d.map scoreRow

/-- The triple returned by `run_DSA`: score table, optional error message
(from the log-data dictionary) and distance table. -/
structure RunOut where
  score : List ScoreRow
  errMsg : Option String
  dist : List DistRow

/-- The chain-count branch of `run_DSA` (pipeline.py lines 296-405):
trim the ensemble with `sort_sequence`; when the number of retained chain
columns exceeds `chain_threshold - 1` compute distances and scores,
otherwise return empty tables and the error `"Less than 3 chains"`.
`getcoord` reads per-PDB CSV files from disk, so the resolved coordinate
table enters the model as the input `ac`. -/
noncomputable def runDSA (ratio : ℚ) (seqdata : SeqMat (String × Int))
    (chainThreshold : Int) (ac : List CoordRow) : RunOut :=
  let trimmed := sortSequence ratio seqdata
  if ((trimmed.chains.length : Int)) > chainThreshold - 1 then
    ⟨getscore (getdistance2 ac) 0, none, getdistance2 ac⟩
  else ⟨[], some "Less than 3 chains", []⟩

/-! ### Characterization of the offset scan loop -/

/-- Offsets in the spec's scan order `1, −1, 2, −2, …` up to `k, −k`. -/
def specOffsetsAux : Nat → List Int
  | 0 => []
  | k + 1 => specOffsetsAux k ++ [(k + 1 : Int), -(k + 1 : Int)]

/-- The offsets the source loop can evaluate, in order:
`1, −1, 2, −2, …, 99, −99`. -/
def specOffsets : List Int := specOffsetsAux 99

/-- The sequence of `num` values the loop guard `num < 100` admits,
starting from `num`, with the given fuel. -/
def visitedOffsets : Nat → Int → List Int
  | 0, _ => []
  | fuel + 1, num =>
      if num < 100 then num :: visitedOffsets fuel (scanNext num) else []

set_option maxRecDepth 4000 in
theorem visitedOffsets_eq_specOffsets : visitedOffsets 200 1 = specOffsets := by
  decide

set_option maxRecDepth 4000 in
theorem zero_not_mem_specOffsets : (0 : Int) ∉ specOffsets := by decide

theorem whileScan_of_found (f : Int → Nat) (fuel : Nat) (num : Int) (u : Nat) (n : Int)
    (hu : u < 10)
    (hfind : (visitedOffsets fuel num).find? (fun k => decide (10 ≤ f k)) = some n) :
    whileScan f fuel num u = (scanNext n, f n) := by
  induction fuel generalizing num u with
  | zero => simp [visitedOffsets] at hfind
  | succ fuel ih =>
    by_cases hnum : num < 100
    · rw [visitedOffsets, if_pos hnum] at hfind
      rw [List.find?_cons] at hfind
      by_cases hfn : 10 ≤ f num
      · rw [decide_eq_true hfn] at hfind
        simp only [if_true] at hfind
        injection hfind with hn
        subst hn
        rw [whileScan, if_pos ⟨hu, hnum⟩]
        cases fuel with
        | zero => rfl
        | succ fuel => rw [whileScan, if_neg (by omega)]
      · rw [decide_eq_false hfn] at hfind
        simp only [if_false] at hfind
        rw [whileScan, if_pos ⟨hu, hnum⟩]
        exact ih _ _ (by omega) hfind
    · rw [visitedOffsets, if_neg hnum] at hfind
      simp at hfind

theorem whileScan_of_none (f : Int → Nat) (fuel : Nat) (num : Int) (u : Nat)
    (hu : u < 10)
    (hfind : (visitedOffsets fuel num).find? (fun k => decide (10 ≤ f k)) = none) :
    (whileScan f fuel num u).2 < 10 := by
  induction fuel generalizing num u with
  | zero => simpa [whileScan] using hu
  | succ fuel ih =>
    by_cases hnum : num < 100
    · rw [visitedOffsets, if_pos hnum] at hfind
      rw [List.find?_cons] at hfind
      by_cases hfn : 10 ≤ f num
      · rw [decide_eq_true hfn] at hfind
        simp at hfind
      · rw [decide_eq_false hfn] at hfind
        simp only [if_false] at hfind
        rw [whileScan, if_pos ⟨hu, hnum⟩]
        exact ih _ _ (by omega) hfind
    · rw [whileScan, if_neg (by omega)]
      exact hu

set_option maxRecDepth 4000 in
/-- The loop plus the post-loop branch, as a single function of the match
counts: stop at the first scanned offset reaching 10 matches; shift only if
that count exceeds 10, otherwise drop; drop when the window is exhausted. -/
theorem chainDecision_characterization (f : Int → Nat) (h0 : ¬ 10 < f 0) :
    chainDecision f =
      match specOffsets.find? (fun k => decide (10 ≤ f k)) with
      | some n => if 10 < f n then .shiftBy n else .drop
      | none => .drop := by
  rw [chainDecision, if_neg h0]
  cases hfind : specOffsets.find? (fun k => decide (10 ≤ f k)) with
  | some n =>
    have hmem : n ∈ specOffsets := List.mem_of_find?_eq_some hfind
    have hn0 : n ≠ 0 := fun h => zero_not_mem_specOffsets (h ▸ hmem)
    have hrun : whileScan f 200 1 0 = (scanNext n, f n) :=
      whileScan_of_found f 200 1 0 n (by omega)
        (by rw [visitedOffsets_eq_specOffsets]; exact hfind)
    rw [hrun]
    by_cases hgt : 10 < f n
    · rw [if_pos hgt]
      show ChainFate.shiftBy _ = if 10 < f n then ChainFate.shiftBy n else ChainFate.drop
      rw [if_pos hgt]
      congr 1
      unfold scanNext
      by_cases hneg : n < 0
      · rw [if_pos hneg, if_pos (by omega)]; omega
      · rw [if_neg hneg, if_neg (by omega)]; omega
    · rw [if_neg hgt]
      show ChainFate.drop = if 10 < f n then ChainFate.shiftBy n else ChainFate.drop
      rw [if_neg hgt]
  | none =>
    have hrun : (whileScan f 200 1 0).2 < 10 :=
      whileScan_of_none f 200 1 0 (by omega)
        (by rw [visitedOffsets_eq_specOffsets]; exact hfind)
    rw [if_neg (by omega)]

/-! ### Helper lemmas about chain decisions -/

theorem chainDecision_keep (f : Int → Nat) (h : chainDecision f = ChainFate.keep) :
    10 < f 0 := by
  by_contra h0
  rw [chainDecision_characterization f h0] at h
  split at h
  · split at h
    · exact ChainFate.noConfusion h
    · exact ChainFate.noConfusion h
  · exact ChainFate.noConfusion h

theorem chainDecision_shift (f : Int → Nat) (n : Int)
    (h : chainDecision f = ChainFate.shiftBy n) : 10 < f n := by
  by_cases h0 : 10 < f 0
  · simp only [chainDecision, if_pos h0] at h
    exact ChainFate.noConfusion h
  · rw [chainDecision_characterization f h0] at h
    split at h
    · rename_i k hfind
      split at h
      · rename_i hgt
        injection h with hkn
        exact hkn ▸ hgt
      · exact ChainFate.noConfusion h
    · exact ChainFate.noConfusion h

/-! ### Concrete inputs for the EnsembleTrimmer claims -/

/-- Reference column for the C1 examples: 26 pairwise-distinct codes. -/
def lettersC1 : List String :=
  ["a", "b", "c", "d", "e", "f", "g", "h", "i", "j", "k", "l", "m",
   "n", "o", "p", "q", "r", "s", "t", "u", "v", "w", "x", "y", "z"]

/-- Chain codes matching the reference at exactly 10 rows when shifted by 1
and at 12 rows when shifted by 2. -/
def chainCodesC1 : List String :=
  ["b", "c", "d", "e", "f", "g", "h", "i", "j", "k", "1", "2",
   "o", "p", "q", "r", "s", "t", "u", "v", "w", "x", "y", "z", "3", "4"]

/-- One-chain ensemble matrix on which the scan stops at offset 1 with
exactly 10 matches, although offset 2 would give 12. -/
def exC1 : SeqMat (String × Int) :=
  ⟨lettersC1.map some, [chainCodesC1.enum.map (fun p => some (p.2, (p.1 : Int)))]⟩

/-- Two equal reference residues with a chain agreeing only at the first:
the check view drops row 1, so the disagreement there is never tested. -/
def exC2 : SeqMat (String × Int) :=
  ⟨[some "GLY", some "GLY"], [[some ("GLY", 1), some ("TRP", 2)]]⟩

/-- A chain whose codes match the reference shifted by 2 at 12 rows. -/
def exC2w : SeqMat (String × Int) :=
  ⟨(["a", "b", "c", "d", "e", "f", "g", "h", "i", "j", "k", "l", "m", "n"]).map some,
   [(["c", "d", "e", "f", "g", "h", "i", "j", "k", "l", "m", "n", "1", "2"]).enum.map
      (fun p => some (p.2, (p.1 : Int)))]⟩

/-- A run of two equal reference residues, fully agreeing chain: both rows
survive `sort_sequence`, so the returned matrix carries a duplicate
reference value. -/
def exC3 : SeqMat (String × Int) :=
  ⟨[some "ALA", some "ALA"], [[some ("ALA", 3), some ("ALA", 7)]]⟩

/-! ### Claims C1 and C2 -/

/-- Claim C1 (corrected), counterexample: in `exC1` the offsets 1 and −1
yield at most 10 deduplicated matches and offset 2 yields more than 10, so
under the claim the chain would be accepted at the first qualifying offset
2 — well inside the window — and shifted; the code instead stops scanning
at offset 1 (whose count reaches 10 but does not exceed it) and drops the
chain, returning a matrix without it. -/
theorem claim1_counterexample :
    diffCount exC1 0 0 ≤ 10 ∧ diffCount exC1 0 1 = 10 ∧
    diffCount exC1 0 (-1) ≤ 10 ∧ 10 < diffCount exC1 0 2 ∧
    disagreesAt 80 exC1 0 = true ∧ (sortSequence 80 exC1).chains = [] := by
  decide

set_option maxRecDepth 4000 in
/-- Claim C1 (amended): for a chain that disagrees with the reference in
the check view, the scan first tests offset 0 and keeps the chain unshifted
when that count exceeds 10; otherwise it scans `1, −1, 2, −2, …, 99, −99`
(window `[−99, 99]`), stopping at the first offset whose deduplicated match
count reaches 10: the chain is shifted by that offset iff the count
strictly exceeds 10, and is dropped (with the `sequence alignment failure`
message) otherwise — including when the stopping count is exactly 10. -/
theorem claim1_theorem (ratio : ℚ) (m : SeqMat (String × Int)) (j : Nat)
    (h : disagreesAt ratio m j = true) :
    decisionFor ratio m j =
      if 10 < diffCount m j 0 then ChainFate.keep
      else
        match specOffsets.find? (fun k => decide (10 ≤ diffCount m j k)) with
        | some n => if 10 < diffCount m j n then ChainFate.shiftBy n else ChainFate.drop
        | none => ChainFate.drop := by
  rw [decisionFor, if_pos h]
  by_cases h0 : 10 < diffCount m j 0
  · rw [if_pos h0, chainDecision, if_pos h0]
  · rw [if_neg h0]
    exact chainDecision_characterization (fun n => diffCount m j n) h0

/-- Claim C1 witness: the amended characterization applied to the concrete
ensemble `exC1`. -/
theorem claim1_witness :
    disagreesAt 80 exC1 0 = true ∧
    decisionFor 80 exC1 0 =
      (if 10 < diffCount exC1 0 0 then ChainFate.keep
       else
        match specOffsets.find? (fun k => decide (10 ≤ diffCount exC1 0 k)) with
        | some n => if 10 < diffCount exC1 0 n then ChainFate.shiftBy n else ChainFate.drop
        | none => ChainFate.drop) :=
  ⟨by decide, claim1_theorem 80 exC1 0 (by decide)⟩

/-- Claim C2 (corrected), counterexample: on `exC2` the trimmed matrix
returned by `sort_sequence` retains row 1, where the chain's residue code
`TRP` differs from the reference residue `GLY`; cell-wise agreement with
the reference does not hold for the returned matrix. -/
theorem claim2_counterexample :
    ((sortSequence 50 exC2).chains.getD 0 []).getD 1 none = some ("TRP", 2) ∧
    (sortSequence 50 exC2).ref.getD 1 none = some "GLY" ∧ "TRP" ≠ "GLY" := by
  decide

/-- Claim C2 (amended): `sort_sequence` guarantees agreement only through
its per-chain decisions: a chain kept unchanged either never disagreed with
the reference on the check view or had more than 10 deduplicated matches
unshifted, and a chain shifted by `n` had more than 10 deduplicated matches
at offset `n`; the returned matrix is the re-trimmed, seq-num-deduplicated
result of applying those decisions, and cell-wise equality with the
reference at every retained row is not guaranteed. -/
theorem claim2_theorem (ratio : ℚ) (m : SeqMat (String × Int)) (j : Nat) :
    (decisionFor ratio m j = ChainFate.keep →
        disagreesAt ratio m j = false ∨ 10 < diffCount m j 0)
    ∧ (∀ n, decisionFor ratio m j = ChainFate.shiftBy n → 10 < diffCount m j n)
    ∧ sortSequence ratio m = trim2Seq (trimSeq ratio (applyDecisions ratio m)) := by
  refine ⟨?_, ?_, rfl⟩
  · intro hk
    cases hd : disagreesAt ratio m j with
    | false => exact Or.inl rfl
    | true =>
      rw [decisionFor, if_pos hd] at hk
      exact Or.inr (chainDecision_keep _ hk)
  · intro n hs
    cases hd : disagreesAt ratio m j with
    | false =>
      rw [decisionFor, if_neg (by simp [hd])] at hs
      exact ChainFate.noConfusion hs
    | true =>
      rw [decisionFor, if_pos hd] at hs
      exact chainDecision_shift _ _ hs

/-- Claim C2 witness: on `exC2w` the one chain is shifted by 2, and the
amended theorem yields that its match count at offset 2 exceeds 10. -/
theorem claim2_witness :
    decisionFor 80 exC2w 0 = ChainFate.shiftBy 2 ∧ 10 < diffCount exC2w 0 2 :=
  ⟨by decide, (claim2_theorem 80 exC2w 0).2.1 2 (by decide)⟩

/-! ### Claim C3 -/

theorem getD_map_opt (f : α → β) (c : List (Option α)) (i : Nat) :
    (c.map (Option.map f)).getD i none = Option.map f (c.getD i none) := by
  by_cases h : i < c.length
  · rw [List.getD_eq_getElem (c.map (Option.map f)) none (by simpa using h),
      List.getD_eq_getElem c none h, List.getElem_map]
  · rw [List.getD_eq_default (c.map (Option.map f)) none (by simpa using Nat.le_of_not_lt h),
      List.getD_eq_default c none (Nat.le_of_not_lt h)]
    rfl

theorem getD_mem_take (xs : List (Option Int)) (i j : Nat) (hij : i < j)
    (hi : i < xs.length) : xs.getD i none ∈ xs.take j := by
  have hlen : i < (xs.take j).length := by
    rw [List.length_take]
    omega
  have h1 : (xs.take j).getD i none = xs.getD i none := by
    rw [List.getD_eq_getElem (xs.take j) none hlen, List.getD_eq_getElem xs none hi]
    exact List.getElem_take xs
  rw [← h1, List.getD_eq_getElem (xs.take j) none hlen]
  exact List.getElem_mem hlen

theorem selRows_chain_length (keep : List Nat) (m : SeqMat α) :
    ∀ c ∈ (selRows keep m).chains, c.length = (selRows keep m).ref.length := by
  intro c hc
  simp only [selRows, List.mem_map] at hc
  obtain ⟨c0, _, rfl⟩ := hc
  simp [selRows]

theorem trimSeq_chain_length (ratio : ℚ) (m : SeqMat α) :
    ∀ c ∈ (trimSeq ratio m).chains, c.length = (trimSeq ratio m).ref.length := by
  simp only [trimSeq]
  exact selRows_chain_length _ _

/-- In the output of `trim2_sequence`, every chain's seq-num column is
duplicate-free: a later row with a repeated value is dropped. -/
theorem trim2Seq_nums_pairwise (m : SeqMat (String × Int))
    (hwf : ∀ c ∈ m.chains, c.length = m.ref.length) :
    ∀ c ∈ (trim2Seq m).chains, (numsOf c).Pairwise (· ≠ ·) := by
  intro c hc
  simp only [trim2Seq, selRows, List.mem_map] at hc
  obtain ⟨c0, hc0, rfl⟩ := hc
  simp only [numsOf, List.map_map, List.pairwise_map]
  have hkp : ((List.range m.ref.length).filter
      (fun i => !(m.chains.any (fun c => dupAt (numsOf c) i)))).Pairwise (· < ·) :=
    (List.pairwise_lt_range _).filter _
  refine hkp.imp_of_mem ?_
  intro i j hi hj hij heq
  simp only [Function.comp] at heq
  have hiR := (List.mem_filter.mp hi).1
  have hjP := (List.mem_filter.mp hj).2
  have hiL : i < c0.length := by
    rw [hwf c0 hc0]
    exact List.mem_range.mp hiR
  have hdup : dupAt (numsOf c0) j = true := by
    rw [dupAt, decide_eq_true_iff]
    have hgi : (numsOf c0).getD i none = Option.map Prod.snd (c0.getD i none) :=
      getD_map_opt Prod.snd c0 i
    have hgj : (numsOf c0).getD j none = Option.map Prod.snd (c0.getD j none) :=
      getD_map_opt Prod.snd c0 j
    rw [hgj, ← heq, ← hgi]
    exact getD_mem_take (numsOf c0) i j hij (by simpa [numsOf] using hiL)
  have : m.chains.any (fun c => dupAt (numsOf c) j) = true :=
    List.any_eq_true.mpr ⟨c0, hc0, hdup⟩
  rw [this] at hjP
  exact Bool.noConfusion hjP

/-- Claim C3 (corrected), counterexample: on `exC3` the matrix returned by
`sort_sequence` keeps both rows even though they carry the same reference
residue value `ALA` — the step-2 reference deduplication is not applied to
the returned matrix. -/
theorem claim3_counterexample :
    (sortSequence 80 exC3).ref = [some "ALA", some "ALA"] ∧
    (sortSequence 80 exC3).chains = [[some ("ALA", 3), some ("ALA", 7)]] := by
  decide

/-- Claim C3 (amended): the matrix returned by EnsembleTrimmer has the
per-chain `pdb_seq_num` deduplication of step 5 applied — in every retained
chain column the seq-num values are pairwise distinct, only first
occurrences surviving — while the reference deduplication of step 2 is
applied only to the internal check view, so the returned matrix may retain
several rows with the same reference residue value. -/
theorem claim3_theorem (ratio : ℚ) (m : SeqMat (String × Int)) :
    ∀ c ∈ (sortSequence ratio m).chains, (numsOf c).Pairwise (· ≠ ·) := by
  intro c hc
  exact trim2Seq_nums_pairwise (trimSeq ratio (applyDecisions ratio m))
    (trimSeq_chain_length ratio (applyDecisions ratio m)) c hc

/-! ### Claim C4 -/

theorem rhe_eq_nearestEven (q : ℚ) : rhe q = nearestEven q := by
  have hfr : q - (⌊q⌋ : ℚ) = Int.fract q := Int.self_sub_floor q
  have hf0 : 0 ≤ Int.fract q := Int.fract_nonneg q
  have hf1 : Int.fract q < 1 := Int.fract_lt_one q
  by_cases hz : Int.fract q = 0
  · have hq0 : q - (⌊q⌋ : ℚ) = 0 := by rw [hfr, hz]
    have hceil : ⌈q⌉ = ⌊q⌋ := by
      have hq : q = (⌊q⌋ : ℚ) := by linarith
      rw [hq, Int.ceil_intCast, Int.floor_intCast]
    rw [rhe, nearestEven, hceil, if_pos (by rw [hz]; norm_num),
      if_neg (lt_irrefl _), if_neg (lt_irrefl _)]
    by_cases he : 2 ∣ ⌊q⌋
    · rw [if_pos he]
    · rw [if_neg he]
  · have hpos : 0 < Int.fract q := lt_of_le_of_ne hf0 (Ne.symm hz)
    have hceil : ⌈q⌉ = ⌊q⌋ + 1 := by
      refine le_antisymm (Int.ceil_le.mpr ?_) (Int.add_one_le_iff.mpr (Int.lt_ceil.mpr ?_))
      · push_cast
        linarith
      · linarith
    have habsf : |q - (⌊q⌋ : ℚ)| = Int.fract q := by
      rw [abs_of_nonneg (by linarith)]
      linarith
    have habsc : |q - (⌈q⌉ : ℚ)| = 1 - Int.fract q := by
      rw [hceil]
      push_cast
      rw [abs_of_nonpos (by linarith)]
      linarith
    rcases lt_trichotomy (Int.fract q) (1 / 2) with hlt | heq | hgt
    · rw [rhe, nearestEven, if_pos hlt, if_pos (by rw [habsf, habsc]; linarith)]
    · have hd1 : ¬(|q - (⌊q⌋ : ℚ)| < |q - (⌈q⌉ : ℚ)|) := by
        rw [habsf, habsc, heq]
        norm_num
      have hd2 : ¬(|q - (⌈q⌉ : ℚ)| < |q - (⌊q⌋ : ℚ)|) := by
        rw [habsf, habsc, heq]
        norm_num
      rw [rhe, nearestEven, if_neg (by rw [heq]; exact lt_irrefl _),
        if_neg (by rw [heq]; exact lt_irrefl _)]
      conv_rhs => rw [if_neg hd1, if_neg hd2]
      rw [hceil]
    · rw [rhe, nearestEven, if_neg (by push_neg; linarith), if_pos hgt,
        if_neg (by rw [habsf, habsc]; push_neg; linarith),
        if_pos (by rw [habsf, habsc]; linarith), hceil]

/-- Claim C4 (amended): the distance function computes
`√(Σₖ round((aₖ − bₖ)·1000)²)/1000` where `round` is round-half-to-even
(the `np.rint` semantics), not away-from-zero rounding. -/
theorem claim4_theorem (a b : ℚ × ℚ × ℚ) : calculat a b = specDistHalfEven a b := by
  rw [calculat, specDistHalfEven, rhe_eq_nearestEven, rhe_eq_nearestEven, rhe_eq_nearestEven]

/-- First coordinate pair for the C4 counterexample: a coordinate
difference of 0.0005 Å, whose scaled value 0.5 is a rounding tie. -/
def cexP : ℚ × ℚ × ℚ := (1 / 2000, 0, 0)

/-- Second coordinate triple for the C4 counterexample: the origin. -/
def cexQ : ℚ × ℚ × ℚ := (0, 0, 0)

/-- Claim C4 (corrected), counterexample: at a scaled difference of 1/2 the
code's `np.rint` rounds to the even integer 0 and the distance is 0, while
the claimed away-from-zero rounding gives 1 and distance 1/1000. -/
theorem claim4_counterexample :
    calculat cexP cexQ = 0 ∧ specDistAway cexP cexQ = 1 / 1000 ∧
    calculat cexP cexQ ≠ specDistAway cexP cexQ := by
  have e1 : ((cexP.1 - cexQ.1) * 1000 : ℚ) = 1 / 2 := by norm_num [cexP, cexQ]
  have e2 : ((cexP.2.1 - cexQ.2.1) * 1000 : ℚ) = 0 := by norm_num [cexP, cexQ]
  have e3 : ((cexP.2.2 - cexQ.2.2) * 1000 : ℚ) = 0 := by norm_num [cexP, cexQ]
  have hfl : ⌊(1 / 2 : ℚ)⌋ = 0 := by
    rw [Int.floor_eq_iff]
    norm_num
  have hfrh : Int.fract (1 / 2 : ℚ) = 1 / 2 := by
    unfold Int.fract
    rw [hfl]
    norm_num
  have hr1 : rhe (1 / 2 : ℚ) = 0 := by
    rw [rhe, hfrh, hfl]
    norm_num
  have hr0 : rhe (0 : ℚ) = 0 := by
    rw [rhe, Int.fract_zero, Int.floor_zero]
    norm_num
  have hcalc : calculat cexP cexQ = 0 := by
    rw [calculat, e1, e2, e3, hr1, hr0]
    norm_num
  have ha1 : roundAway (1 / 2 : ℚ) = 1 := by
    rw [roundAway, if_pos (by norm_num)]
    have harg : (1 / 2 : ℚ) + 1 / 2 = 1 := by norm_num
    rw [harg, Int.floor_one]
  have ha0 : roundAway (0 : ℚ) = 0 := by
    rw [roundAway, if_pos le_rfl]
    have harg : (0 : ℚ) + 1 / 2 = 1 / 2 := by norm_num
    rw [harg, hfl]
  have haway : specDistAway cexP cexQ = 1 / 1000 := by
    rw [specDistAway, e1, e2, e3, ha1, ha0]
    norm_num
  exact ⟨hcalc, haway, by rw [hcalc, haway]; norm_num⟩

/-! ### Claim C5 -/

/-- Concrete mmCIF tables for the C5 counterexample: one matching chain
with a microheterogeneity descriptor next to two deletion descriptors that
share a `seq_num`. -/
def exC5 : CifTables :=
  ⟨[⟨"A", "P1"⟩],
   [⟨"A", "5", "5", "microheterogeneity"⟩,
    ⟨"A", "6", "6", "deletion"⟩,
    ⟨"A", "6", "7", "deletion"⟩]⟩

/-- Claim C5 (corrected), counterexample: the descriptors of `exC5` are all
non-excluded, none is `engineered mutation`, one family besides
`microheterogeneity` is present, and the duplicated `seq_num` would trigger
the delins rule — yet `mutationjudge` returns `normal` because
microheterogeneity is merely present. -/
theorem claim5_counterexample :
    mutationjudge ["P1"] exC5 = "normal" ∧
    (∃ d ∈ matchingDif ["P1"] exC5, d.details ≠ "microheterogeneity") ∧
    ¬ ((matchingDif ["P1"] exC5).map (·.seqNum)).Nodup ∧
    filterDif exC5.dif = exC5.dif := by
  decide

/-- Claim C5 (amended): with matching chains present, no chimera
duplication among them, a nonempty filtered descriptor set and no
`engineered mutation` descriptor, MutationClassifier returns `normal`
whenever `microheterogeneity` appears among the descriptor details —
regardless of any further descriptor families; the substitution/delins
rules are reached only when microheterogeneity is absent. -/
theorem claim5_theorem (ids : List String) (c : CifTables)
    (h1 : matchingRefSeq ids c ≠ [])
    (h2 : (matchingRefSeq ids c).Nodup)
    (h3 : matchingDif ids c ≠ [])
    (h4 : "engineered mutation" ∉ (matchingDif ids c).map (·.details))
    (h5 : "microheterogeneity" ∈ (matchingDif ids c).map (·.details)) :
    mutationjudge ids c = "normal" := by
  simp only [mutationjudge]
  rw [if_neg (by simp [List.length_eq_zero, h1]),
    if_neg (not_not_intro h2),
    if_neg (by simp [List.length_eq_zero, h3]),
    if_neg h4, if_pos h5]

/-- Mtables for the C5 witness: one matching chain whose only descriptor
family is microheterogeneity plus an extra substitution descriptor is
absent. -/
def exC5w : CifTables :=
  ⟨[⟨"B", "P2"⟩],
   [⟨"B", "10", "10", "microheterogeneity"⟩,
    ⟨"B", "11", "11", "modified residue"⟩]⟩

/-- Claim C5 witness: the amended rule applied to `exC5w`. -/
theorem claim5_witness :
    matchingRefSeq ["P2"] exC5w ≠ [] ∧ mutationjudge ["P2"] exC5w = "normal" :=
  ⟨by decide,
   claim5_theorem ["P2"] exC5w (by decide) (by decide) (by decide) (by decide) (by decide)⟩

/-! ### Claims C6 and C10 -/

theorem pandasStd_zero_ddof (xs : List ℝ) : pandasStd xs 0 = popStdDev xs := by
  rw [pandasStd, popStdDev, Nat.sub_zero]

/-- Claim C6 (confirmed): every output row of `getscore` carries the
population standard deviation (divisor `n`) with zeros replaced by `1e-4`,
and `score = mean / std`; an all-equal distance row gets `std = 1e-4` and
`score = mean × 10000`. -/
theorem claim6_theorem (d : List DistRow) (r : DistRow) (hr : r ∈ d)
    (hne : r.dists ≠ []) :
    ∃ s ∈ getscore d 0,
      s.key = r.key ∧ s.distMean = listMean r.dists ∧
      (popStdDev r.dists ≠ 0 → s.distStd = popStdDev r.dists) ∧
      (popStdDev r.dists = 0 → s.distStd = 1 / 10000) ∧
      s.score = s.distMean / s.distStd ∧
      ((∀ x ∈ r.dists, ∀ y ∈ r.dists, x = y) →
        s.distStd = 1 / 10000 ∧ s.score = s.distMean * 10000) := by
  refine ⟨scoreRow r, List.mem_map_of_mem _ hr, rfl, rfl, ?_, ?_, rfl, ?_⟩
  · intro h
    show (if pandasStd r.dists 0 = 0 then (1 : ℝ) / 10000 else pandasStd r.dists 0)
        = popStdDev r.dists
    rw [pandasStd_zero_ddof, if_neg h]
  · intro h
    show (if pandasStd r.dists 0 = 0 then (1 : ℝ) / 10000 else pandasStd r.dists 0)
        = 1 / 10000
    rw [pandasStd_zero_ddof, if_pos h]
  · intro hconst
    obtain ⟨x0, hx0⟩ := List.exists_mem_of_ne_nil r.dists hne
    have hall : ∀ x ∈ r.dists, x = x0 := fun x hx => hconst x hx x0 hx0
    have hlen : (0 : ℝ) < (r.dists.length : ℝ) := by
      have := List.length_pos.mpr hne
      exact_mod_cast this
    have hmean : listMean r.dists = x0 := by
      rw [listMean, List.sum_eq_card_nsmul r.dists x0 hall, nsmul_eq_mul]
      field_simp
    have hdev : (r.dists.map (fun x => (x - listMean r.dists) ^ 2)).sum = 0 := by
      apply List.sum_eq_zero
      intro y hy
      obtain ⟨x, hx, rfl⟩ := List.mem_map.mp hy
      rw [hmean, hall x hx]
      ring
    have hstd0 : popStdDev r.dists = 0 := by
      rw [popStdDev, hdev, zero_div, Real.sqrt_zero]
    have h1 : (scoreRow r).distStd = 1 / 10000 := by
      show (if pandasStd r.dists 0 = 0 then (1 : ℝ) / 10000 else pandasStd r.dists 0)
          = 1 / 10000
      rw [pandasStd_zero_ddof, if_pos hstd0]
    refine ⟨h1, ?_⟩
    have hsc : (scoreRow r).score = (scoreRow r).distMean / (scoreRow r).distStd := rfl
    rw [hsc, h1]
    rw [div_eq_mul_inv]
    norm_num

/-- The single all-equal distance row used as the C6 witness. -/
def exC6row : DistRow := ⟨"1, 2", "ALA, GLY", [2, 2, 2]⟩

/-- Claim C6 witness: the statistics contract applied to a concrete
one-row table whose distances are all equal. -/
theorem claim6_witness :
    exC6row ∈ [exC6row] ∧ exC6row.dists ≠ [] ∧
    (∃ s ∈ getscore [exC6row] 0,
      s.key = exC6row.key ∧ s.distMean = listMean exC6row.dists ∧
      (popStdDev exC6row.dists ≠ 0 → s.distStd = popStdDev exC6row.dists) ∧
      (popStdDev exC6row.dists = 0 → s.distStd = 1 / 10000) ∧
      s.score = s.distMean / s.distStd ∧
      ((∀ x ∈ exC6row.dists, ∀ y ∈ exC6row.dists, x = y) →
        s.distStd = 1 / 10000 ∧ s.score = s.distMean * 10000)) :=
  ⟨List.mem_singleton_self _, by simp [exC6row],
   claim6_theorem [exC6row] exC6row (List.mem_singleton_self _) (by simp [exC6row])⟩

/-- Claim C10 (confirmed): `getscore` ignores its `ddof` parameter — the
standard deviation call hardcodes `ddof=0`, so the result never depends on
the argument. -/
theorem claim10_theorem (d : List DistRow) (ddofArg : ℕ) :
    getscore d ddofArg = getscore d 0 := rfl

/-! ### Claim C7 -/

theorem getD_replicate_none (n i : Nat) :
    (List.replicate n (none : Option α)).getD i none = none := by
  by_cases h : i < n
  · rw [List.getD_eq_getElem _ none (by simpa using h), List.getElem_replicate]
  · rw [List.getD_eq_default _ none (by simpa using Nat.le_of_not_lt h)]

/-- Claim C7 (confirmed): under the data-model invariants — each chain
vector has length `end − beg + 1` with `1 ≤ beg ≤ end ≤ L` — every column
of the ensemble matrix produced by `prep` has length exactly `L`, and row
`i` of a chain column holds entry `i − (beg − 1)` of the chain vector when
`beg − 1 ≤ i < end` and null otherwise, i.e. it refers to reference
residue `i`. -/
theorem claim7_theorem (refSeq : List String) (pdbs : List PdbEntry)
    (hb : ∀ p ∈ pdbs, 1 ≤ p.beg ∧ p.beg ≤ p.endPos ∧ p.endPos ≤ refSeq.length)
    (hc : ∀ p ∈ pdbs, ∀ ch ∈ p.chains, ch.length = p.endPos - p.beg + 1) :
    (prepMat refSeq pdbs).ref.length = refSeq.length ∧
    ∀ c ∈ (prepMat refSeq pdbs).chains,
      c.length = refSeq.length ∧
      ∃ p ∈ pdbs, ∃ ch ∈ p.chains,
        c = prepColumn refSeq.length p.beg p.endPos ch ∧
        ∀ i < refSeq.length,
          c.getD i none =
            if p.beg - 1 ≤ i ∧ i < p.endPos then ch.getD (i - (p.beg - 1)) none
            else none := by
  constructor
  · simp [prepMat]
  · intro c hcm
    simp only [prepMat] at hcm
    rw [List.mem_flatten] at hcm
    obtain ⟨lst, hlst, hclst⟩ := hcm
    rw [List.mem_map] at hlst
    obtain ⟨p, hpfilter, rfl⟩ := hlst
    have hp : p ∈ pdbs := (List.mem_filter.mp hpfilter).1
    rw [List.mem_map] at hclst
    obtain ⟨ch, hch, rfl⟩ := hclst
    obtain ⟨hb1, hb2, hb3⟩ := hb p hp
    have hchlen := hc p hp ch hch
    have hlen : (prepColumn refSeq.length p.beg p.endPos ch).length = refSeq.length := by
      rw [prepColumn]
      simp only [List.length_append, List.length_replicate, hchlen]
      omega
    refine ⟨hlen, p, hp, ch, hch, rfl, ?_⟩
    intro i hi
    rw [prepColumn]
    simp only [List.append_assoc]
    by_cases h1 : i < p.beg - 1
    · rw [List.getD_append _ _ none i (by simpa using h1), getD_replicate_none,
        if_neg (by omega)]
    · rw [List.getD_append_right _ _ none i (by simp only [List.length_replicate]; omega)]
      simp only [List.length_replicate]
      by_cases h2 : i < p.endPos
      · rw [List.getD_append _ _ none _ (by rw [hchlen]; omega), if_pos ⟨by omega, h2⟩]
      · rw [List.getD_append_right _ _ none _ (by rw [hchlen]; omega), getD_replicate_none,
          if_neg (by omega)]

/-- Reference sequence for the C7 witness. -/
def exRefC7 : List String := ["MET", "ALA", "GLY"]

/-- One normal PDB entry covering reference positions 2..3 for the C7
witness. -/
def exPdbsC7 : List PdbEntry := [⟨"normal", 2, 3, [[some ("ALA", 10), some ("GLY", 11)]]⟩]

/-- Claim C7 witness: the invariant checked on a concrete one-entry
ensemble. -/
theorem claim7_witness :
    (∀ p ∈ exPdbsC7, 1 ≤ p.beg ∧ p.beg ≤ p.endPos ∧ p.endPos ≤ exRefC7.length) ∧
    ((prepMat exRefC7 exPdbsC7).ref.length = exRefC7.length ∧
     ∀ c ∈ (prepMat exRefC7 exPdbsC7).chains,
       c.length = exRefC7.length ∧
       ∃ p ∈ exPdbsC7, ∃ ch ∈ p.chains,
         c = prepColumn exRefC7.length p.beg p.endPos ch ∧
         ∀ i < exRefC7.length,
           c.getD i none =
             if p.beg - 1 ≤ i ∧ i < p.endPos then ch.getD (i - (p.beg - 1)) none
             else none) :=
  ⟨by decide, claim7_theorem exRefC7 exPdbsC7 (by decide) (by decide)⟩

/-! ### Claim C8 -/

/-- Claim C8 (confirmed): `run_DSA` returns the empty score table with the
error `"Less than 3 chains"` exactly when the number of retained chain
columns is below `chain_threshold` (`len(trimseqcol) > chain_threshold - 1`
fails), and otherwise proceeds to the distance and score computation. -/
theorem claim8_theorem (ratio : ℚ) (seqdata : SeqMat (String × Int)) (t : Int)
    (ac : List CoordRow) :
    (((sortSequence ratio seqdata).chains.length : Int) < t ∧
      runDSA ratio seqdata t ac = ⟨[], some "Less than 3 chains", []⟩) ∨
    (¬ ((sortSequence ratio seqdata).chains.length : Int) < t ∧
      runDSA ratio seqdata t ac = ⟨getscore (getdistance2 ac) 0, none, getdistance2 ac⟩) := by
  by_cases h : ((sortSequence ratio seqdata).chains.length : Int) > t - 1
  · right
    refine ⟨by omega, ?_⟩
    simp only [runDSA]
    rw [if_pos h]
  · left
    refine ⟨by omega, ?_⟩
    simp only [runDSA]
    rw [if_neg h]

/-! ### Claim C9 -/

theorem combos_length (l : List α) : (combos l).length = l.length.choose 2 := by
  induction l with
  | nil => rfl
  | cons x xs ih =>
    simp only [combos, List.length_append, List.length_map, List.length_cons, ih]
    rw [Nat.choose_succ_succ, Nat.choose_one_right]

theorem combos_map (f : α → β) (l : List α) :
    combos (l.map f) = (combos l).map (Prod.map f f) := by
  induction l with
  | nil => rfl
  | cons x xs ih =>
    simp [combos, List.map_append, List.map_map, ih, Function.comp, Prod.map]

theorem combos_mem_parts {l : List α} {p : α × α} (hp : p ∈ combos l) :
    p.1 ∈ l ∧ p.2 ∈ l := by
  induction l with
  | nil => simp [combos] at hp
  | cons x xs ih =>
    rcases List.mem_append.mp hp with hl | hr
    · obtain ⟨y, hy, rfl⟩ := List.mem_map.mp hl
      exact ⟨List.mem_cons_self x xs, List.mem_cons_of_mem x hy⟩
    · obtain ⟨h1, h2⟩ := ih hr
      exact ⟨List.mem_cons_of_mem x h1, List.mem_cons_of_mem x h2⟩

theorem combos_lt {l : List Nat} (h : l.Pairwise (· < ·)) :
    ∀ p ∈ combos l, p.1 < p.2 := by
  induction l with
  | nil => intro p hp; simp [combos] at hp
  | cons x xs ih =>
    rw [List.pairwise_cons] at h
    intro p hp
    rcases List.mem_append.mp hp with hl | hr
    · obtain ⟨y, hy, rfl⟩ := List.mem_map.mp hl
      exact h.1 y hy
    · exact ih h.2 p hr

theorem combos_complete {l : List Nat} (h : l.Pairwise (· < ·)) :
    ∀ i j, i ∈ l → j ∈ l → i < j → (i, j) ∈ combos l := by
  induction l with
  | nil => intro i j hi; simp at hi
  | cons x xs ih =>
    rw [List.pairwise_cons] at h
    intro i j hi hj hij
    rcases List.mem_cons.mp hi with rfl | hi2
    · rcases List.mem_cons.mp hj with rfl | hj2
      · omega
      · exact List.mem_append.mpr (Or.inl (List.mem_map.mpr ⟨j, hj2, rfl⟩))
    · rcases List.mem_cons.mp hj with rfl | hj2
      · have := h.1 i hi2
        omega
      · exact List.mem_append.mpr (Or.inr (ih h.2 i j hi2 hj2 hij))

theorem combos_sorted {l : List Nat} (h : l.Pairwise (· < ·)) :
    (combos l).Pairwise (fun p q => p.1 < q.1 ∨ (p.1 = q.1 ∧ p.2 < q.2)) := by
  induction l with
  | nil => exact List.Pairwise.nil
  | cons x xs ih =>
    rw [List.pairwise_cons] at h
    rw [combos, List.pairwise_append]
    refine ⟨?_, ih h.2, ?_⟩
    · rw [List.pairwise_map]
      exact h.2.imp (fun hlt => Or.inr ⟨rfl, hlt⟩)
    · intro p hp q hq
      obtain ⟨y, hy, rfl⟩ := List.mem_map.mp hp
      exact Or.inl (h.1 q.1 (combos_mem_parts hq).1)

/-- Claim C9 (confirmed): for a coordinate table whose row labels are
strictly increasing, `getdistance2` emits exactly `L'(L'−1)/2` rows, keyed
`"{i+1}, {j+1}"` over the 2-combinations of the labels with the reference
residue pair, the emitted pairs satisfy `i < j`, cover every such pair of
labels, and are in lexicographic order. -/
theorem claim9_theorem (t : List CoordRow)
    (hs : t.Pairwise (fun a b => a.idx < b.idx)) :
    (getdistance2 t).length = t.length * (t.length - 1) / 2 ∧
    (getdistance2 t).map (fun r => r.key) =
      (combos (t.map (fun r => r.idx))).map
        (fun p => toString (p.1 + 1) ++ ", " ++ toString (p.2 + 1)) ∧
    (getdistance2 t).map (fun r => r.residuePair) =
      (combos (t.map (fun r => r.refCode))).map (fun p => p.1 ++ ", " ++ p.2) ∧
    (∀ p ∈ combos (t.map (fun r => r.idx)), p.1 < p.2) ∧
    (∀ i j, i ∈ t.map (fun r => r.idx) → j ∈ t.map (fun r => r.idx) → i < j →
      (i, j) ∈ combos (t.map (fun r => r.idx))) ∧
    (combos (t.map (fun r => r.idx))).Pairwise
      (fun p q => p.1 < q.1 ∨ (p.1 = q.1 ∧ p.2 < q.2)) := by
  have hidx : (t.map (fun r => r.idx)).Pairwise (· < ·) := by
    rw [List.pairwise_map]
    exact hs
  refine ⟨?_, ?_, ?_, combos_lt hidx, combos_complete hidx, combos_sorted hidx⟩
  · rw [getdistance2, List.length_map, combos_length, Nat.choose_two_right]
  · rw [getdistance2, List.map_map, combos_map, List.map_map]
    rfl
  · rw [getdistance2, List.map_map, combos_map, List.map_map]
    rfl

/-- Three coordinate rows with labels 0, 2, 5 for the C9 witness. -/
def exC9 : List CoordRow :=
  [⟨0, "MET", [("MET", 0, 0, 0)]⟩, ⟨2, "ALA", [("ALA", 1, 0, 0)]⟩,
   ⟨5, "GLY", [("GLY", 0, 1, 0)]⟩]

/-- Claim C9 witness: the enumeration contract applied to `exC9`. -/
theorem claim9_witness :
    exC9.Pairwise (fun a b => a.idx < b.idx) ∧
    ((getdistance2 exC9).length = exC9.length * (exC9.length - 1) / 2 ∧
     (getdistance2 exC9).map (fun r => r.key) =
       (combos (exC9.map (fun r => r.idx))).map
         (fun p => toString (p.1 + 1) ++ ", " ++ toString (p.2 + 1)) ∧
     (getdistance2 exC9).map (fun r => r.residuePair) =
       (combos (exC9.map (fun r => r.refCode))).map (fun p => p.1 ++ ", " ++ p.2) ∧
     (∀ p ∈ combos (exC9.map (fun r => r.idx)), p.1 < p.2) ∧
     (∀ i j, i ∈ exC9.map (fun r => r.idx) → j ∈ exC9.map (fun r => r.idx) → i < j →
       (i, j) ∈ combos (exC9.map (fun r => r.idx))) ∧
     (combos (exC9.map (fun r => r.idx))).Pairwise
       (fun p q => p.1 < q.1 ∨ (p.1 = q.1 ∧ p.2 < q.2))) :=
  ⟨by decide, claim9_theorem exC9 (by decide)⟩

/-- A small agreeing ensemble for the C3 witness. -/
def exC3w : SeqMat (String × Int) :=
  ⟨[some "MET", some "VAL"], [[some ("MET", 4), some ("VAL", 9)]]⟩

/-- Claim C3 witness: the seq-num deduplication invariant checked on the
retained chain of `exC3w`. -/
theorem claim3_witness :
    [some ("MET", 4), some ("VAL", 9)] ∈ (sortSequence 80 exC3w).chains ∧
    (numsOf [some ("MET", 4), some ("VAL", 9)]).Pairwise (· ≠ ·) :=
  ⟨by decide, claim3_theorem 80 exC3w [some ("MET", 4), some ("VAL", 9)] (by decide)⟩
